import Mathlib

/-!
Verification of the CrudeLoja inventory / point-of-sale core.

The definitions below are a shallow embedding of the repository's storage
layer (`DatabaseStorage` over the drizzle schema), its HTTP sale route, the
in-memory storage variant (`MemStorage`) and the client-side top-products
report.  Timestamps are modelled as natural numbers (milliseconds), the SQL
`DATE()` truncation as division by the number of milliseconds in a day, and
the `numeric(10,2)` money columns as integers (cents), which keeps decimal
arithmetic exact.  Fallible database statements return `Except`.
-/

namespace CrudeLoja

/-- Row of the `clients` table (shared schema). -/
structure Client where
  id : Nat
  name : String
  email : String
  phone : String
  address : String
  city : String
  state : String
  lastOrderDate : Option Nat
deriving DecidableEq

/-- Row of the `products` table (shared schema).  `price` is cents; `stock`
is the plain SQL `integer` column, hence `Int` (the schema places no
non-negativity constraint on it). -/
structure Product where
  id : Nat
  name : String
  description : String
  category : String
  price : Int
  stock : Int
  minStock : Option Int
  sku : Option String
  updatedAt : Option Nat
deriving DecidableEq

/-- Row of the `sales` table. -/
structure Sale where
  id : Nat
  date : Nat
  clientId : Option Nat
  total : Int
  notes : Option String
deriving DecidableEq

/-- Row of the `sale_items` table. -/
structure SaleItem where
  id : Nat
  saleId : Nat
  productId : Nat
  quantity : Int
  unitPrice : Int
  total : Int
deriving DecidableEq

/-- `InsertSale` payload (the insert schema omits `id`). -/
structure InsertSale where
  date : Nat
  clientId : Option Nat
  total : Int
  notes : Option String
deriving DecidableEq

/-- `InsertProduct` payload (the insert schema omits `id` and `updatedAt`). -/
structure InsertProduct where
  name : String
  description : String
  category : String
  price : Int
  stock : Int
  minStock : Option Int
  sku : Option String
deriving DecidableEq

/-- `Omit<InsertSaleItem, "saleId">`: one line item of a sale request. -/
structure ItemInput where
  productId : Nat
  quantity : Int
  unitPrice : Int
  total : Int
deriving DecidableEq

/-- The relational store: the four tables plus the serial-id counters used
when inserting sales and sale items. -/
structure Store where
  clients : List Client
  products : List Product
  sales : List Sale
  saleItems : List SaleItem
  nextSaleId : Nat
  nextSaleItemId : Nat
deriving DecidableEq

/-- Database-level failure: the only constraint the schema places on the
statements issued by `createSale` is the foreign keys of `sales.client_id`
and `sale_items.product_id`. -/
inductive DbErr where
  | fkViolation
deriving DecidableEq

/-- SQL `DATE(timestamp)` truncation, with timestamps in milliseconds. -/
def dateOf (ts : Nat) : Nat := ts / 86400000

/-- `tx.insert(sales).values(sale).returning()`: assigns the serial id and
appends the row; fails on the `client_id` foreign key. -/
def insertSaleRow (st : Store) (sh : InsertSale) : Except DbErr (Store × Sale) :=
  let fkOk : Bool :=
    match sh.clientId with
    | none => true
    | some cid => st.clients.any (fun c => c.id == cid)
  if fkOk then
    let sale : Sale :=
      { id := st.nextSaleId, date := sh.date, clientId := sh.clientId,
        total := sh.total, notes := sh.notes }
    .ok ({ st with sales := st.sales ++ [sale], nextSaleId := st.nextSaleId + 1 }, sale)
  else
    .error .fkViolation

/-- `tx.insert(saleItems).values(items.map(...))`: a single multi-row insert,
atomic per statement; fails on the `product_id` foreign key. -/
def insertSaleItemRows (st : Store) (saleId : Nat) (items : List ItemInput) :
    Except DbErr Store :=
  if items.all (fun i => st.products.any (fun p => p.id == i.productId)) then
    .ok { st with
          saleItems := st.saleItems ++
            items.enum.map (fun ki =>
              { id := st.nextSaleItemId + ki.fst, saleId := saleId,
                productId := ki.snd.productId, quantity := ki.snd.quantity,
                unitPrice := ki.snd.unitPrice, total := ki.snd.total }),
          nextSaleItemId := st.nextSaleItemId + items.length }
  else
    .error .fkViolation

/-- The stock-update loop of `createSale`: for each line item, the statement
`update products set stock = stock - quantity where id = productId`. -/
def applyStockUpdates (ps : List Product) (items : List ItemInput) : List Product :=
  items.foldl
    (fun acc i =>
      acc.map (fun p => if p.id = i.productId then { p with stock := p.stock - i.quantity } else p))
    ps

/-- `update clients set last_order_date = date where id = clientId`. -/
def updateClientLastOrder (cs : List Client) (cid : Nat) (d : Nat) : List Client :=
  cs.map (fun c => if c.id = cid then { c with lastOrderDate := some d } else c)

/-- The body of `DatabaseStorage.createSale` run statement by statement: it
returns the store as mutated so far together with the outcome, i.e. the
uncommitted transaction state when a statement fails. -/
def createSaleSteps (st : Store) (sh : InsertSale) (items : List ItemInput) :
    Store × Except DbErr Sale :=
  match insertSaleRow st sh with
  | .error e => (st, .error e)
  | .ok (st₁, newSale) =>
    if items.length > 0 then
      match insertSaleItemRows st₁ newSale.id items with
      | .error e => (st₁, .error e)
      | .ok st₂ =>
        let st₃ := { st₂ with products := applyStockUpdates st₂.products items }
        let st₄ :=
          match newSale.clientId with
          | some cid => { st₃ with clients := updateClientLastOrder st₃.clients cid newSale.date }
          | none => st₃
        (st₄, .ok newSale)
    else
      (st₁, .ok newSale)

/-- `DatabaseStorage.createSale`: the body of `createSaleSteps` wrapped in
`db.transaction`, so a failing run is rolled back and the pre-call store
remains the observable state. -/
def createSale (st : Store) (sh : InsertSale) (items : List ItemInput) :
    Store × Except DbErr Sale :=
  match createSaleSteps st sh items with
  | (st', .ok s) => (st', .ok s)
  | (_, .error e) => (st, .error e)

/-- Sum of the quantities of the line items that reference `pid`. -/
def itemsQty (items : List ItemInput) (pid : Nat) : Int :=
  ((items.filter (fun i => i.productId == pid)).map ItemInput.quantity).sum

/-- `DatabaseStorage.updateProduct`: full replacement of the mutable fields
plus a fresh `updatedAt` stamp, on the matching `products` row only; returns
the updated row when the id exists. -/
def updateProduct (st : Store) (pid : Nat) (q : InsertProduct) (now : Nat) :
    Store × Option Product :=
  let upd : Product → Product := fun p =>
    { id := p.id, name := q.name, description := q.description,
      category := q.category, price := q.price, stock := q.stock,
      minStock := q.minStock, sku := q.sku, updatedAt := some now }
  ({ st with products := st.products.map (fun p => if p.id = pid then upd p else p) },
   (st.products.find? (fun p => p.id == pid)).map upd)

/-- `ORDER BY desc(sales.date)` as a relation on sale rows. -/
def saleDateGe (a b : Sale) : Prop := b.date ≤ a.date

instance : DecidableRel saleDateGe := fun _ _ => Nat.decLe _ _

instance : IsTotal Sale saleDateGe := ⟨fun a b => Nat.le_total b.date a.date⟩

instance : IsTrans Sale saleDateGe := ⟨fun _ _ _ hab hbc => Nat.le_trans hbc hab⟩

/-- `DatabaseStorage.getSales`: when both bounds are present, restrict to the
closed date interval; in every case order by sale date descending. -/
def getSales (st : Store) (startDate endDate : Option Nat) : List Sale :=
  match startDate, endDate with
  | some s, some e =>
    List.insertionSort saleDateGe
      (st.sales.filter (fun x => decide (s ≤ x.date) && decide (x.date ≤ e)))
  | _, _ => List.insertionSort saleDateGe st.sales

/-- One row of the daily summary (`DATE`, `SUM(total)`, `COUNT(id)`). -/
structure DaySummary where
  date : Nat
  total : Int
  count : Nat
deriving DecidableEq

/-- `DatabaseStorage.getSalesSummaryByDay`: the SQL query
`select DATE(date), SUM(total), COUNT(id) from sales where date between
startDate and endDate group by DATE(date) order by DATE(date)`. -/
def getSalesSummaryByDay (st : Store) (s e : Nat) : List DaySummary :=
  let rows := st.sales.filter (fun x => decide (s ≤ x.date) && decide (x.date ≤ e))
  let days := List.insertionSort (· ≤ ·) ((rows.map (fun x => dateOf x.date)).dedup)
  days.map (fun d =>
    { date := d,
      total := ((rows.filter (fun x => dateOf x.date == d)).map Sale.total).sum,
      count := (rows.filter (fun x => dateOf x.date == d)).length })

/-- Responses of the `POST /api/sales` route that matter to the claims. -/
inductive ApiResponse where
  | created (sale : Sale)
  | badRequest (msg : String)
  | storageError (msg : String)
deriving DecidableEq

/-- The normalized sale-submission payload (both accepted request shapes
reduce to this before the storage call). -/
structure SalePayload where
  clientId : Option Nat
  date : Nat
  total : Int
  items : List ItemInput
deriving DecidableEq

/-- The `POST /api/sales` handler: builds the sale header, rejects an empty
item list with 400 before calling the storage layer, otherwise runs
`storage.createSale` and maps its outcome to a response. -/
def postSales (st : Store) (p : SalePayload) : Store × ApiResponse :=
  let sale : InsertSale :=
    { clientId := p.clientId, date := p.date, total := p.total, notes := none }
  if p.items.length = 0 then
    (st, .badRequest "Sale must have at least one item")
  else
    match createSale st sale p.items with
    | (st', .ok s) => (st', .created s)
    | (st', .error _) => (st', .storageError "Error in storage layer")

/-- One row of the `GET /api/sale-items` feed (sale item joined with its
product's name and price). -/
structure FeedRow where
  id : Nat
  saleId : Nat
  productId : Nat
  quantity : Int
  unitPrice : Int
  total : Int
  productName : String
  productPrice : Int
deriving DecidableEq

/-- The `GET /api/sale-items` query: sale items inner-joined with `products`
and `sales`, restricted to sales dated within the closed window.  The inner
join keeps a row only when a product with the item's `productId` exists. -/
def getSaleItemsFeed (st : Store) (s e : Nat) : List FeedRow :=
  st.saleItems.filterMap (fun it =>
    match st.products.find? (fun p => p.id == it.productId),
          st.sales.find? (fun sa => sa.id == it.saleId) with
    | some p, some sa =>
      if decide (s ≤ sa.date) && decide (sa.date ≤ e) then
        some { id := it.id, saleId := it.saleId, productId := it.productId,
               quantity := it.quantity, unitPrice := it.unitPrice, total := it.total,
               productName := p.name, productPrice := p.price }
      else none
    | _, _ => none)

/-- One entry of the client-side top-products report. -/
structure TopProduct where
  id : Nat
  name : String
  quantity : Int
  total : Int
deriving DecidableEq

/-- Upsert into the `productMap` record.  A JavaScript object with
integer-like keys enumerates them in ascending numeric order regardless of
insertion order, so the record is modelled as an association list kept
sorted by ascending key. -/
def upsertQty (pid : Nat) (q t : Int) : List (Nat × Int × Int) → List (Nat × Int × Int)
  | [] => [(pid, q, t)]
  | (k, q₀, t₀) :: rest =>
    if pid = k then (k, q₀ + q, t₀ + t) :: rest
    else if pid < k then (pid, q, t) :: (k, q₀, t₀) :: rest
    else (k, q₀, t₀) :: upsertQty pid q t rest

/-- The grouping loop of `calculateTopProductsFromSaleItems`: accumulate
each item's quantity and `quantity * unitPrice` under its `productId`. -/
def buildProductMap (items : List FeedRow) : List (Nat × Int × Int) :=
  items.foldl (fun m it => upsertQty it.productId it.quantity (it.quantity * it.unitPrice) m) []

/-- `.sort((a, b) => b.quantity - a.quantity)` as a relation: descending by
quantity (JavaScript `Array.prototype.sort` is stable, as is
`List.insertionSort`). -/
def topProductOrder (a b : TopProduct) : Prop := b.quantity ≤ a.quantity

instance : DecidableRel topProductOrder := fun _ _ => Int.decLe _ _

instance : IsTotal TopProduct topProductOrder := ⟨fun a b => Int.le_total b.quantity a.quantity⟩

instance : IsTrans TopProduct topProductOrder := ⟨fun _ _ _ hab hbc => Int.le_trans hbc hab⟩

/-- `product?.name || 'Produto não encontrado'`: JavaScript `||` also falls
through on an empty-string name. -/
def productLabel (products : List Product) (pid : Nat) : String :=
  match products.find? (fun p => p.id == pid) with
  | some p => if p.name = "" then "Produto não encontrado" else p.name
  | none => "Produto não encontrado"

/-- The dashboard's `calculateTopProductsFromSaleItems`: bail out when either
list is empty, group the fetched sale items by `productId`, label each entry
from the fetched product list (sentinel name when absent), sort descending
by quantity and keep the top 5. -/
def calculateTopProductsFromSaleItems (saleItemRows : List FeedRow)
    (products : List Product) : List TopProduct :=
  if saleItemRows.length = 0 ∨ products.length = 0 then []
  else
    let pm := buildProductMap saleItemRows
    let entries := pm.map (fun e =>
      { id := e.fst, name := productLabel products e.fst,
        quantity := e.snd.fst, total := e.snd.snd })
    (List.insertionSort topProductOrder entries).take 5

/-- Sum of the quantities of the feed rows that reference `pid`. -/
def feedQty (items : List FeedRow) (pid : Nat) : Int :=
  ((items.filter (fun i => i.productId == pid)).map FeedRow.quantity).sum

/-- Substring test on character lists, modelling JavaScript
`String.prototype.includes`. -/
def infixOf (needle : List Char) : List Char → Bool
  | [] => needle.isEmpty
  | c :: cs => needle.isPrefixOf (c :: cs) || infixOf needle cs

/-- `hay.includes(needle)` on strings. -/
def jsIncludes (hay needle : String) : Bool := infixOf needle.data hay.data

/-- SQL `LIKE` matching on character lists (`%` any sequence, `_` any one). -/
def likeMatch : List Char → List Char → Bool
  | [], [] => true
  | [], _ :: _ => false
  | '%' :: ps, [] => likeMatch ps []
  | '%' :: ps, c :: cs => likeMatch ps (c :: cs) || likeMatch ('%' :: ps) cs
  | '_' :: _, [] => false
  | '_' :: ps, _ :: cs => likeMatch ps cs
  | _ :: _, [] => false
  | p :: ps, c :: cs => p == c && likeMatch ps cs
termination_by ps cs => (cs.length, ps.length)

/-- Postgres `ILIKE`: case-insensitive `LIKE`. -/
def ilikeMatch (field pat : String) : Bool := likeMatch pat.toLower.data field.toLower.data

/-- `MemStorage.getClients`: the `if (search)` guard is JavaScript
truthiness, so both a missing term and the empty string skip the filter. -/
def memGetClients (clientsList : List Client) : Option String → List Client
  | none => clientsList
  | some search =>
    if search = "" then clientsList
    else
      let searchLower := search.toLower
      clientsList.filter (fun c =>
        jsIncludes c.name.toLower searchLower ||
        jsIncludes c.email.toLower searchLower ||
        jsIncludes c.phone.toLower searchLower ||
        jsIncludes c.address.toLower searchLower ||
        jsIncludes c.city.toLower searchLower)

/-- `MemStorage.getProducts`: same shape over the product text fields, with
the nullable SKU guarded first. -/
def memGetProducts (productsList : List Product) : Option String → List Product
  | none => productsList
  | some search =>
    if search = "" then productsList
    else
      let searchLower := search.toLower
      productsList.filter (fun p =>
        jsIncludes p.name.toLower searchLower ||
        jsIncludes p.description.toLower searchLower ||
        jsIncludes p.category.toLower searchLower ||
        (match p.sku with
         | some sk => jsIncludes sk.toLower searchLower
         | none => false))

/-- `DatabaseStorage.getClients`: `ILIKE '%' || lower(search) || '%'` over
the five client text columns; the `if (search)` truthiness guard again lets
a missing term or the empty string return the whole table. -/
def dbGetClients (clientsList : List Client) : Option String → List Client
  | none => clientsList
  | some search =>
    if search = "" then clientsList
    else
      let pat := "%" ++ search.toLower ++ "%"
      clientsList.filter (fun c =>
        ilikeMatch c.name pat ||
        ilikeMatch c.email pat ||
        ilikeMatch c.phone pat ||
        ilikeMatch c.address pat ||
        ilikeMatch c.city pat)

deriving instance DecidableEq for Except

/-! ### Concrete stores used to evaluate the operations -/

/-- A product with a single unit in stock. -/
def demoProduct : Product :=
  { id := 1, name := "Cafe", description := "Pacote de cafe", category := "Bebidas",
    price := 500, stock := 1, minStock := some 5, sku := none, updatedAt := some 0 }

/-- A store holding only `demoProduct`. -/
def demoStore : Store :=
  { clients := [], products := [demoProduct], sales := [], saleItems := [],
    nextSaleId := 1, nextSaleItemId := 1 }

/-- An anonymous sale header. -/
def demoHeader : InsertSale :=
  { date := 86400000, clientId := none, total := 1000, notes := none }

/-- A line item asking for two units of the one-unit product. -/
def overdrawItem : ItemInput :=
  { productId := 1, quantity := 2, unitPrice := 500, total := 1000 }

/-- A line item referencing a product id that does not exist. -/
def badItem : ItemInput :=
  { productId := 99, quantity := 1, unitPrice := 100, total := 100 }

/-! ### Claims about the sale transaction -/

/-- Claim C1: the specification requires that a `createSale` call whose
line-item quantity exceeds the referenced product's stock fails without
changing that stock.  The code performs no stock-sufficiency check and the
schema has no constraint on `products.stock`, so selling two units of a
one-unit product succeeds and leaves the stored stock at `-1`. -/
theorem createSale_overdraws_stock :
    (createSale demoStore demoHeader [overdrawItem]).snd =
      Except.ok { id := 1, date := 86400000, clientId := none, total := 1000, notes := none } ∧
    (createSale demoStore demoHeader [overdrawItem]).fst.products.map Product.stock = [-1] := by
  decide

/-- Claim C2: `createSale` is atomic.  Whenever the statement-by-statement
run of the transaction body fails, the observable store after the
transactional `createSale` is exactly the store before the call. -/
theorem createSale_atomic (st : Store) (sh : InsertSale) (items : List ItemInput)
    (e : DbErr) (h : (createSaleSteps st sh items).snd = Except.error e) :
    (createSale st sh items).fst = st ∧
    (createSale st sh items).snd = Except.error e := by
  rcases hsteps : createSaleSteps st sh items with ⟨st', r⟩
  rw [hsteps] at h
  cases r with
  | ok s => exact absurd h (by simp)
  | error e' =>
    simp only at h
    cases h
    constructor <;> simp [createSale, hsteps]

/-- Witness for C2: with a line item whose product id is absent, the body
fails only after inserting the sale header (the partial state differs from
the initial store), yet the transactional call exposes the initial store. -/
theorem createSale_atomic_witness :
    (createSaleSteps demoStore demoHeader [badItem]).snd = Except.error DbErr.fkViolation ∧
    (createSaleSteps demoStore demoHeader [badItem]).fst ≠ demoStore ∧
    (createSale demoStore demoHeader [badItem]).fst = demoStore :=
  ⟨by decide, by decide,
    (createSale_atomic demoStore demoHeader [badItem] DbErr.fkViolation (by decide)).1⟩

/-- Claim C5: `POST /api/sales` with an empty line-item list is rejected
with the 400 response before the storage layer runs: the store is returned
unchanged, so no sale header or any other row is persisted. -/
theorem postSales_rejects_empty_items (st : Store) (p : SalePayload)
    (h : p.items = []) :
    postSales st p = (st, ApiResponse.badRequest "Sale must have at least one item") := by
  simp [postSales, h]

/-- An empty sale submission. -/
def emptyPayload : SalePayload := { clientId := none, date := 0, total := 0, items := [] }

/-- Witness for C5 at a concrete store and payload. -/
theorem postSales_rejects_empty_items_witness :
    postSales demoStore emptyPayload =
      (demoStore, ApiResponse.badRequest "Sale must have at least one item") :=
  postSales_rejects_empty_items demoStore emptyPayload rfl

/-- Claim C8: after a sale is created, `updateProduct` (which rewrites only
the matching `products` row) leaves the `sale_items` table untouched, so the
recorded unit-price snapshots never change. -/
theorem updateProduct_preserves_saleItems (st st₁ : Store) (sh : InsertSale)
    (items : List ItemInput) (s : Sale)
    (_h : createSale st sh items = (st₁, Except.ok s))
    (pid : Nat) (q : InsertProduct) (now : Nat) :
    (updateProduct st₁ pid q now).fst.saleItems = st₁.saleItems := rfl

/-- A product update changing the price of `demoProduct`. -/
def repriceInput : InsertProduct :=
  { name := "Cafe", description := "Pacote de cafe", category := "Bebidas",
    price := 900, stock := 10, minStock := some 5, sku := none }

/-- Witness for C8: create a sale with unit price 500, then change the
product's price; the recorded sale items are unchanged. -/
theorem updateProduct_preserves_saleItems_witness :
    (updateProduct (createSale demoStore demoHeader [overdrawItem]).fst 1 repriceInput 7).fst.saleItems =
      (createSale demoStore demoHeader [overdrawItem]).fst.saleItems :=
  updateProduct_preserves_saleItems demoStore
    (createSale demoStore demoHeader [overdrawItem]).fst demoHeader [overdrawItem]
    { id := 1, date := 86400000, clientId := none, total := 1000, notes := none }
    (by decide) 1 repriceInput 7

/-! ### The cumulative effect of the stock-update loop -/

theorem itemsQty_nil (pid : Nat) : itemsQty [] pid = 0 := rfl

theorem itemsQty_cons (i : ItemInput) (is : List ItemInput) (pid : Nat) :
    itemsQty (i :: is) pid =
      (if i.productId = pid then i.quantity else 0) + itemsQty is pid := by
  by_cases h : i.productId = pid <;>
    simp [itemsQty, List.filter_cons, h]

/-- Folding the per-item `stock = stock - quantity` updates decrements every
product's stock by the total quantity of the line items that reference it
(and leaves unreferenced products unchanged, the sum being zero). -/
theorem applyStockUpdates_eq_map (items : List ItemInput) (ps : List Product) :
    applyStockUpdates ps items =
      ps.map (fun p => { p with stock := p.stock - itemsQty items p.id }) := by
  induction items generalizing ps with
  | nil =>
    show ps = _
    have h : ∀ p : Product, ({ p with stock := p.stock - itemsQty [] p.id } : Product) = p := by
      intro p; cases p; simp [itemsQty_nil]
    calc ps = ps.map id := by simp
      _ = _ := by
        apply List.map_congr_left
        intro p _
        exact (h p).symm
  | cons i is ih =>
    show applyStockUpdates
        (ps.map fun p => if p.id = i.productId then { p with stock := p.stock - i.quantity } else p)
        is = _
    rw [ih, List.map_map]
    apply List.map_congr_left
    intro p _
    by_cases h : p.id = i.productId
    · simp only [Function.comp, h, if_pos rfl, itemsQty_cons]
      have : ({ p with stock := p.stock - i.quantity } : Product).id = p.id := rfl
      simp [h, Int.sub_sub]
    · have h' : ¬ i.productId = p.id := fun hh => h hh.symm
      simp [Function.comp, h, itemsQty_cons, h']

/-- Inserting the sale header does not touch the `products` table. -/
theorem insertSaleRow_products {st st₁ : Store} {sh : InsertSale} {sa : Sale}
    (h : insertSaleRow st sh = Except.ok (st₁, sa)) : st₁.products = st.products := by
  unfold insertSaleRow at h
  split at h
  · injection h with h'
    cases h'
    rfl
  · simp only [] at h
    split at h
    · injection h with h'
      cases h'
      rfl
    · exact absurd h (by simp)

/-- Inserting the sale items does not touch the `products` table. -/
theorem insertSaleItemRows_products {st st₂ : Store} {saleId : Nat}
    {items : List ItemInput}
    (h : insertSaleItemRows st saleId items = Except.ok st₂) :
    st₂.products = st.products := by
  unfold insertSaleItemRows at h
  split at h
  · injection h with h'
    cases h'
    rfl
  · exact absurd h (by simp)

/-- Claim C3: a successful `createSale` with a non-empty item list rewrites
the `products` table exactly by decrementing each product's stock by the
summed quantities of the line items referencing it; products referenced by
no line item keep their stock (their sum of quantities is zero). -/
theorem createSale_stock_decrement (st st' : Store) (sh : InsertSale)
    (items : List ItemInput) (s : Sale)
    (hne : items ≠ [])
    (h : createSale st sh items = (st', Except.ok s)) :
    st'.products = st.products.map (fun p => { p with stock := p.stock - itemsQty items p.id }) := by
  have hsteps : createSaleSteps st sh items = (st', Except.ok s) := by
    unfold createSale at h
    rcases h1 : createSaleSteps st sh items with ⟨a, r⟩
    rw [h1] at h
    cases r with
    | ok s0 =>
      simp only at h
      injection h with h2 h3
      cases h2; cases h3; rfl
    | error e =>
      simp only at h
      injection h with h2 h3
      exact absurd h3 (by simp)
  have hlen : items.length > 0 := List.length_pos.mpr hne
  unfold createSaleSteps at hsteps
  rcases hrow : insertSaleRow st sh with e | ⟨st₁, sa⟩ <;> rw [hrow] at hsteps
  · exact absurd hsteps (by simp)
  · simp only [if_pos hlen] at hsteps
    rcases hitems : insertSaleItemRows st₁ sa.id items with e | st₂ <;>
      rw [hitems] at hsteps
    · exact absurd hsteps (by simp)
    · have hprod : st'.products = applyStockUpdates st₂.products items := by
        rcases hcid : sa.clientId with _ | cid <;>
          simp only [hcid] at hsteps <;>
          · injection hsteps with h2 h3
            cases h2
            rfl
      rw [hprod, insertSaleItemRows_products hitems, insertSaleRow_products hrow,
        applyStockUpdates_eq_map]

/-- A store with two products in stock. -/
def twoProductStore : Store :=
  { clients := [],
    products :=
      [{ id := 1, name := "Cafe", description := "Pacote de cafe", category := "Bebidas",
         price := 500, stock := 10, minStock := some 5, sku := none, updatedAt := some 0 },
       { id := 2, name := "Leite", description := "Caixa de leite", category := "Bebidas",
         price := 400, stock := 8, minStock := some 5, sku := none, updatedAt := some 0 }],
    sales := [], saleItems := [], nextSaleId := 1, nextSaleItemId := 1 }

/-- Two line items for product 1 (quantities 2 and 3); product 2 untouched. -/
def splitItems : List ItemInput :=
  [{ productId := 1, quantity := 2, unitPrice := 500, total := 1000 },
   { productId := 1, quantity := 3, unitPrice := 500, total := 1500 }]

/-- Witness for C3: product 1 loses 2 + 3 = 5 units, product 2 none. -/
theorem createSale_stock_decrement_witness :
    (createSale twoProductStore demoHeader splitItems).fst.products =
      twoProductStore.products.map
        (fun p => { p with stock := p.stock - itemsQty splitItems p.id }) :=
  createSale_stock_decrement twoProductStore
    (createSale twoProductStore demoHeader splitItems).fst demoHeader splitItems
    { id := 1, date := 86400000, clientId := none, total := 1000, notes := none }
    (by decide) (by decide)

/-! ### Daily sales summary -/

/-- Unfolding of the grouped query. -/
theorem getSalesSummaryByDay_eq (st : Store) (s e : Nat) :
    getSalesSummaryByDay st s e =
      (List.insertionSort (· ≤ ·)
          (((st.sales.filter (fun x => decide (s ≤ x.date) && decide (x.date ≤ e))).map
              (fun x => dateOf x.date)).dedup)).map
        (fun d =>
          { date := d,
            total := (((st.sales.filter (fun x => decide (s ≤ x.date) && decide (x.date ≤ e))).filter
                (fun x => dateOf x.date == d)).map Sale.total).sum,
            count := ((st.sales.filter (fun x => decide (s ≤ x.date) && decide (x.date ≤ e))).filter
                (fun x => dateOf x.date == d)).length }) := rfl

/-- Claim C4: the daily summary is strictly ordered by day ascending (hence
has exactly one entry per day), a day appears exactly when some sale in the
closed date window falls on it, and each entry's total and count are the
exact sum and number of the window's sale rows of that day. -/
theorem getSalesSummaryByDay_spec (st : Store) (s e : Nat) :
    ((getSalesSummaryByDay st s e).map DaySummary.date).Sorted (· < ·) ∧
    (∀ d : Nat,
      d ∈ (getSalesSummaryByDay st s e).map DaySummary.date ↔
        ∃ x ∈ st.sales, (s ≤ x.date ∧ x.date ≤ e) ∧ dateOf x.date = d) ∧
    (∀ en ∈ getSalesSummaryByDay st s e,
      en.total = (((st.sales.filter (fun x => decide (s ≤ x.date) && decide (x.date ≤ e))).filter
          (fun x => dateOf x.date == en.date)).map Sale.total).sum ∧
      en.count = ((st.sales.filter (fun x => decide (s ≤ x.date) && decide (x.date ≤ e))).filter
          (fun x => dateOf x.date == en.date)).length) := by
  have hperm :
      (List.insertionSort (· ≤ ·)
          (((st.sales.filter (fun x => decide (s ≤ x.date) && decide (x.date ≤ e))).map
              (fun x => dateOf x.date)).dedup)).Perm
        (((st.sales.filter (fun x => decide (s ≤ x.date) && decide (x.date ≤ e))).map
            (fun x => dateOf x.date)).dedup) :=
    List.perm_insertionSort _ _
  have hnodup := hperm.nodup_iff.mpr (List.nodup_dedup _)
  have hsorted : (List.insertionSort (· ≤ ·)
      (((st.sales.filter (fun x => decide (s ≤ x.date) && decide (x.date ≤ e))).map
          (fun x => dateOf x.date)).dedup)).Sorted (· < ·) :=
    (List.sorted_insertionSort _ _).lt_of_le hnodup
  have hmapdate : (getSalesSummaryByDay st s e).map DaySummary.date =
      List.insertionSort (· ≤ ·)
        (((st.sales.filter (fun x => decide (s ≤ x.date) && decide (x.date ≤ e))).map
            (fun x => dateOf x.date)).dedup) := by
    rw [getSalesSummaryByDay_eq, List.map_map]
    exact List.map_id _
  refine ⟨by rw [hmapdate]; exact hsorted, fun d => ?_, fun en hen => ?_⟩
  · rw [hmapdate, hperm.mem_iff, List.mem_dedup, List.mem_map]
    constructor
    · rintro ⟨x, hx, rfl⟩
      rcases List.mem_filter.mp hx with ⟨hxs, hcond⟩
      simp only [Bool.and_eq_true, decide_eq_true_eq] at hcond
      exact ⟨x, hxs, hcond, rfl⟩
    · rintro ⟨x, hxs, hcond, rfl⟩
      refine ⟨x, List.mem_filter.mpr ⟨hxs, ?_⟩, rfl⟩
      simp only [Bool.and_eq_true, decide_eq_true_eq]
      exact hcond
  · rw [getSalesSummaryByDay_eq] at hen
    rcases List.mem_map.mp hen with ⟨d, _, rfl⟩
    exact ⟨rfl, rfl⟩

/-! ### Sale listing order and CRUD search -/

/-- Claim C10: `getSales` sorts by sale date descending; with both bounds it
returns exactly the sales of the closed interval, without a range it returns
all sales, in both cases as a permutation of the underlying rows. -/
theorem getSales_spec (st : Store) (s e : Nat) :
    (getSales st (some s) (some e)).Sorted saleDateGe ∧
    (getSales st (some s) (some e)).Perm
      (st.sales.filter (fun x => decide (s ≤ x.date) && decide (x.date ≤ e))) ∧
    (∀ x : Sale, x ∈ getSales st (some s) (some e) ↔
      x ∈ st.sales ∧ s ≤ x.date ∧ x.date ≤ e) ∧
    (getSales st none none).Sorted saleDateGe ∧
    (getSales st none none).Perm st.sales := by
  refine ⟨List.sorted_insertionSort _ _, List.perm_insertionSort _ _, fun x => ?_,
    List.sorted_insertionSort _ _, List.perm_insertionSort _ _⟩
  rw [show getSales st (some s) (some e) =
      List.insertionSort saleDateGe
        (st.sales.filter (fun x => decide (s ≤ x.date) && decide (x.date ≤ e))) from rfl,
    (List.perm_insertionSort _ _).mem_iff, List.mem_filter]
  simp [Bool.and_eq_true, decide_eq_true_eq, and_assoc]

/-- Claim C9: for each of `MemStorage.getClients`, `MemStorage.getProducts`
and `DatabaseStorage.getClients`, listing with no search term equals listing
with the empty string (both fall through the JavaScript truthiness guard), and
listing with any term returns a subset of the full listing. -/
theorem list_search_subset :
    (∀ cs : List Client, memGetClients cs none = memGetClients cs (some "") ∧
      ∀ t : String, memGetClients cs (some t) ⊆ memGetClients cs none) ∧
    (∀ ps : List Product, memGetProducts ps none = memGetProducts ps (some "") ∧
      ∀ t : String, memGetProducts ps (some t) ⊆ memGetProducts ps none) ∧
    (∀ cs : List Client, dbGetClients cs none = dbGetClients cs (some "") ∧
      ∀ t : String, dbGetClients cs (some t) ⊆ dbGetClients cs none) := by
  refine ⟨fun cs => ⟨by simp [memGetClients], fun t => ?_⟩,
    fun ps => ⟨by simp [memGetProducts], fun t => ?_⟩,
    fun cs => ⟨by simp [dbGetClients], fun t => ?_⟩⟩
  · by_cases ht : t = "" <;> simp [memGetClients, ht, List.filter_subset']
  · by_cases ht : t = "" <;> simp [memGetProducts, ht, List.filter_subset']
  · by_cases ht : t = "" <;> simp [dbGetClients, ht, List.filter_subset']

/-! ### Top-products report -/

/-- The order actually realized by the report: descending quantity, ties by
ascending product id. -/
def topProductLex (a b : TopProduct) : Prop :=
  b.quantity < a.quantity ∨ (a.quantity = b.quantity ∧ a.id < b.id)

theorem topProductLex_qty_le {a b : TopProduct} (h : topProductLex a b) :
    b.quantity ≤ a.quantity := by
  rcases h with h | ⟨h, _⟩
  · exact le_of_lt h
  · exact h.ge

/-- Inserting an element whose id is below every id in a lex-sorted list
keeps the list lex-sorted. -/
theorem sorted_lex_orderedInsert (x : TopProduct) (l : List TopProduct)
    (hl : l.Sorted topProductLex) (hid : ∀ y ∈ l, x.id < y.id) :
    (List.orderedInsert topProductOrder x l).Sorted topProductLex := by
  induction l with
  | nil => simp [List.orderedInsert]
  | cons b t ih =>
    simp only [List.orderedInsert]
    by_cases hxb : topProductOrder x b
    · rw [if_pos hxb]
      rw [List.sorted_cons]
      refine ⟨?_, hl⟩
      intro y hy
      have hyq : y.quantity ≤ x.quantity := by
        rcases List.mem_cons.mp hy with rfl | hyt
        · exact hxb
        · exact le_trans (topProductLex_qty_le ((List.sorted_cons.mp hl).1 y hyt)) hxb
      rcases lt_or_eq_of_le hyq with hlt | heq
      · exact Or.inl hlt
      · exact Or.inr ⟨heq.symm, hid y hy⟩
    · rw [if_neg hxb]
      rw [List.sorted_cons] at hl ⊢
      obtain ⟨hbt, ht⟩ := hl
      refine ⟨?_, ih ht (fun y hy => hid y (List.mem_cons_of_mem _ hy))⟩
      intro y hy
      rcases (List.mem_orderedInsert _).mp hy with rfl | hyt
      · have hq : y.quantity < b.quantity := by
          have : ¬ b.quantity ≤ y.quantity := hxb
          omega
        exact Or.inl hq
      · exact hbt y hyt

/-- Stability: sorting a list whose ids are strictly increasing by quantity
descending yields a list sorted lexicographically (quantity descending, then
id ascending). -/
theorem sorted_lex_insertionSort (l : List TopProduct)
    (h : l.Pairwise (fun a b => a.id < b.id)) :
    (List.insertionSort topProductOrder l).Sorted topProductLex := by
  induction l with
  | nil => simp
  | cons x t ih =>
    simp only [List.insertionSort]
    rcases List.pairwise_cons.mp h with ⟨hx, ht⟩
    exact sorted_lex_orderedInsert x _ (ih ht)
      (fun y hy => hx y ((List.perm_insertionSort topProductOrder t).subset hy))

theorem upsertQty_fst_mem (pid : Nat) (q t : Int) (m : List (Nat × Int × Int)) :
    ∀ b ∈ upsertQty pid q t m, b.fst = pid ∨ ∃ a ∈ m, b.fst = a.fst := by
  induction m with
  | nil =>
    intro b hb
    rcases List.mem_singleton.mp hb with rfl
    exact Or.inl rfl
  | cons hd rest ih =>
    obtain ⟨k, q0, t0⟩ := hd
    intro b hb
    simp only [upsertQty] at hb
    split_ifs at hb with h1 h2
    · rcases List.mem_cons.mp hb with rfl | hbt
      · exact Or.inl h1.symm
      · exact Or.inr ⟨b, List.mem_cons_of_mem _ hbt, rfl⟩
    · rcases List.mem_cons.mp hb with rfl | hbt
      · exact Or.inl rfl
      · exact Or.inr ⟨b, hbt, rfl⟩
    · rcases List.mem_cons.mp hb with rfl | hbt
      · exact Or.inr ⟨(k, q0, t0), List.mem_cons_self _ _, rfl⟩
      · rcases ih b hbt with hbp | ⟨a, ha, hba⟩
        · exact Or.inl hbp
        · exact Or.inr ⟨a, List.mem_cons_of_mem _ ha, hba⟩

/-- Upserting keeps the association keys strictly ascending. -/
theorem upsertQty_pairwise (pid : Nat) (q t : Int) (m : List (Nat × Int × Int))
    (h : m.Pairwise (fun a b => a.fst < b.fst)) :
    (upsertQty pid q t m).Pairwise (fun a b => a.fst < b.fst) := by
  induction m with
  | nil => simp [upsertQty]
  | cons hd rest ih =>
    obtain ⟨k, q0, t0⟩ := hd
    rcases List.pairwise_cons.mp h with ⟨hhd, hrest⟩
    simp only [upsertQty]
    split_ifs with h1 h2
    · exact List.pairwise_cons.mpr ⟨fun b hb => hhd b hb, hrest⟩
    · refine List.pairwise_cons.mpr ⟨?_, List.pairwise_cons.mpr ⟨hhd, hrest⟩⟩
      intro b hb
      rcases List.mem_cons.mp hb with rfl | hbt
      · exact h2
      · exact lt_trans h2 (hhd b hbt)
    · refine List.pairwise_cons.mpr ⟨?_, ih hrest⟩
      intro b hb
      rcases upsertQty_fst_mem pid q t rest b hb with hbp | ⟨a, ha, hba⟩
      · rw [hbp]; omega
      · rw [hba]; exact hhd a ha

/-- Quantity stored under key `k` in the association map. -/
def qtyAt (m : List (Nat × Int × Int)) (k : Nat) : Int :=
  match m.find? (fun ab => ab.fst == k) with
  | some ab => ab.snd.fst
  | none => 0

theorem qtyAt_cons (k0 : Nat) (q0 t0 : Int) (m : List (Nat × Int × Int)) (k : Nat) :
    qtyAt ((k0, q0, t0) :: m) k = if k0 = k then q0 else qtyAt m k := by
  by_cases h : k0 = k
  · have hb : (k0 == k) = true := by simpa using h
    simp [qtyAt, List.find?, hb, h]
  · have hb : (k0 == k) = false := by simpa using h
    simp [qtyAt, List.find?, hb, h]

theorem qtyAt_eq_zero (m : List (Nat × Int × Int)) (k : Nat)
    (h : ∀ a ∈ m, a.fst ≠ k) : qtyAt m k = 0 := by
  have hfind : m.find? (fun ab => ab.fst == k) = none :=
    List.find?_eq_none.mpr (by intro a ha; simpa using h a ha)
  simp [qtyAt, hfind]

theorem qtyAt_upsert (pid k : Nat) (q t : Int) (m : List (Nat × Int × Int))
    (h : m.Pairwise (fun a b => a.fst < b.fst)) :
    qtyAt (upsertQty pid q t m) k = qtyAt m k + (if k = pid then q else 0) := by
  induction m with
  | nil =>
    have hu : upsertQty pid q t [] = [(pid, q, t)] := rfl
    rw [hu, qtyAt_cons]
    by_cases hk : pid = k
    · rw [if_pos hk, if_pos hk.symm]
      simp [qtyAt]
    · rw [if_neg hk, if_neg (fun hh => hk hh.symm)]
      simp [qtyAt]
  | cons hd rest ih =>
    obtain ⟨k0, q0, t0⟩ := hd
    rcases List.pairwise_cons.mp h with ⟨hhd, hrest⟩
    by_cases h1 : pid = k0
    · have hu : upsertQty pid q t ((k0, q0, t0) :: rest) = (k0, q0 + q, t0 + t) :: rest := by
        simp [upsertQty, h1]
      rw [hu, qtyAt_cons, qtyAt_cons]
      by_cases hk : k0 = k
      · rw [if_pos hk, if_pos hk, if_pos (show k = pid by omega)]
      · rw [if_neg hk, if_neg hk, if_neg (show ¬ k = pid by omega)]
        omega
    · by_cases h2 : pid < k0
      · have hu : upsertQty pid q t ((k0, q0, t0) :: rest) =
            (pid, q, t) :: (k0, q0, t0) :: rest := by
          simp [upsertQty, h1, h2]
        rw [hu, qtyAt_cons]
        by_cases hk : pid = k
        · rw [if_pos hk]
          have hz : qtyAt ((k0, q0, t0) :: rest) k = 0 := by
            apply qtyAt_eq_zero
            intro a ha
            rcases List.mem_cons.mp ha with rfl | hat
            · show k0 ≠ k
              omega
            · have h3 : k0 < a.fst := hhd a hat
              omega
          rw [hz, if_pos hk.symm]
          omega
        · rw [if_neg hk, if_neg (fun hh => hk hh.symm)]
          omega
      · have hu : upsertQty pid q t ((k0, q0, t0) :: rest) =
            (k0, q0, t0) :: upsertQty pid q t rest := by
          simp [upsertQty, h1, h2]
        rw [hu, qtyAt_cons, qtyAt_cons]
        by_cases hk0 : k0 = k
        · rw [if_pos hk0, if_pos hk0, if_neg (show ¬ k = pid by omega)]
          omega
        · rw [if_neg hk0, if_neg hk0, ih hrest]

theorem feedQty_cons (i : FeedRow) (is : List FeedRow) (pid : Nat) :
    feedQty (i :: is) pid =
      (if i.productId = pid then i.quantity else 0) + feedQty is pid := by
  by_cases h : i.productId = pid <;> simp [feedQty, List.filter_cons, h]

theorem qtyAt_fold (items : List FeedRow) (m : List (Nat × Int × Int)) (k : Nat)
    (h : m.Pairwise (fun a b => a.fst < b.fst)) :
    qtyAt (items.foldl
        (fun acc it => upsertQty it.productId it.quantity (it.quantity * it.unitPrice) acc) m) k =
      qtyAt m k + feedQty items k := by
  induction items generalizing m with
  | nil => simp [feedQty]
  | cons it its ih =>
    rw [List.foldl_cons, ih _ (upsertQty_pairwise _ _ _ _ h), qtyAt_upsert _ _ _ _ _ h,
      feedQty_cons]
    by_cases hk : k = it.productId
    · have : it.productId = k := hk.symm
      rw [if_pos hk, if_pos this]
      omega
    · have : ¬ it.productId = k := fun hh => hk hh.symm
      rw [if_neg hk, if_neg this]
      omega

theorem buildProductMap_pairwise (items : List FeedRow) :
    (buildProductMap items).Pairwise (fun a b => a.fst < b.fst) := by
  have hgen : ∀ (l : List FeedRow) (m : List (Nat × Int × Int)),
      m.Pairwise (fun a b => a.fst < b.fst) →
      (l.foldl (fun acc it => upsertQty it.productId it.quantity (it.quantity * it.unitPrice) acc)
        m).Pairwise (fun a b => a.fst < b.fst) := by
    intro l
    induction l with
    | nil => intro m hm; exact hm
    | cons it its ih => intro m hm; exact ih _ (upsertQty_pairwise _ _ _ _ hm)
  exact hgen items [] List.Pairwise.nil

theorem qtyAt_buildProductMap (items : List FeedRow) (k : Nat) :
    qtyAt (buildProductMap items) k = feedQty items k := by
  have := qtyAt_fold items [] k List.Pairwise.nil
  simpa [buildProductMap, qtyAt] using this

theorem qtyAt_of_mem (m : List (Nat × Int × Int)) (a : Nat × Int × Int)
    (h : m.Pairwise (fun x y => x.fst < y.fst)) (ha : a ∈ m) :
    qtyAt m a.fst = a.snd.fst := by
  induction m with
  | nil => cases ha
  | cons hd rest ih =>
    obtain ⟨k0, q0, t0⟩ := hd
    rcases List.pairwise_cons.mp h with ⟨hhd, hrest⟩
    rcases List.mem_cons.mp ha with rfl | hat
    · show qtyAt ((k0, q0, t0) :: rest) k0 = q0
      rw [qtyAt_cons, if_pos rfl]
    · have hne : k0 ≠ a.fst := ne_of_lt (hhd a hat)
      rw [qtyAt_cons, if_neg hne]
      exact ih hrest hat

/-- Products used in the specification's worked ranking example. -/
def exampleProducts : List Product :=
  [{ id := 1, name := "Produto A", description := "Primeiro produto", category := "Geral",
     price := 100, stock := 50, minStock := some 5, sku := none, updatedAt := some 0 },
   { id := 2, name := "Produto B", description := "Segundo produto", category := "Geral",
     price := 200, stock := 50, minStock := some 5, sku := none, updatedAt := some 0 }]

/-- Sale items (productA, qty 10), (productB, qty 30), (productA, qty 5). -/
def exampleItems : List FeedRow :=
  [{ id := 1, saleId := 1, productId := 1, quantity := 10, unitPrice := 100, total := 1000,
     productName := "Produto A", productPrice := 100 },
   { id := 2, saleId := 1, productId := 2, quantity := 30, unitPrice := 200, total := 6000,
     productName := "Produto B", productPrice := 200 },
   { id := 3, saleId := 2, productId := 1, quantity := 5, unitPrice := 100, total := 500,
     productName := "Produto A", productPrice := 100 }]

/-- Claim C7 (amended): the report groups the window's sale items by
`productId` summing quantities, sorts descending by total quantity with ties
ordered by ascending product id (the grouping object enumerates its integer
keys in ascending numeric order and the sort is stable), truncates to 5
entries, and on the worked example returns productB (30) before
productA (15). -/
theorem calculateTopProducts_ranking (rows : List FeedRow) (products : List Product) :
    (calculateTopProductsFromSaleItems rows products).Sorted topProductLex ∧
    (∀ en ∈ calculateTopProductsFromSaleItems rows products,
      en.quantity = feedQty rows en.id) ∧
    (calculateTopProductsFromSaleItems rows products).length ≤ 5 ∧
    (calculateTopProductsFromSaleItems exampleItems exampleProducts).map
        (fun en => (en.id, en.name, en.quantity)) =
      [(2, "Produto B", 30), (1, "Produto A", 15)] := by
  refine ⟨?_, ?_, ?_, by decide⟩
  · simp only [calculateTopProductsFromSaleItems]
    split_ifs with hcond
    · simp
    · exact List.Pairwise.sublist (List.take_sublist _ _)
        (sorted_lex_insertionSort _ (List.pairwise_map.mpr (buildProductMap_pairwise rows)))
  · intro en hen
    simp only [calculateTopProductsFromSaleItems] at hen
    split_ifs at hen with hcond
    · exact absurd hen (List.not_mem_nil en)
    · have h1 := List.mem_of_mem_take hen
      have h2 := (List.perm_insertionSort topProductOrder _).subset h1
      rcases List.mem_map.mp h2 with ⟨a, ha, rfl⟩
      have hv := qtyAt_of_mem _ a (buildProductMap_pairwise rows) ha
      show a.snd.fst = feedQty rows a.fst
      rw [← hv]
      exact qtyAt_buildProductMap rows a.fst
  · simp only [calculateTopProductsFromSaleItems]
    split_ifs with hcond
    · simp
    · exact List.length_take_le 5 _

/-- Products with ids 3 and 5 for the tie-break counterexample. -/
def tieProducts : List Product :=
  [{ id := 3, name := "Produto C", description := "Terceiro produto", category := "Geral",
     price := 100, stock := 50, minStock := some 5, sku := none, updatedAt := some 0 },
   { id := 5, name := "Produto E", description := "Quinto produto", category := "Geral",
     price := 100, stock := 50, minStock := some 5, sku := none, updatedAt := some 0 }]

/-- Two equal-quantity items, product 5 discovered before product 3. -/
def tieItems : List FeedRow :=
  [{ id := 1, saleId := 1, productId := 5, quantity := 2, unitPrice := 100, total := 200,
     productName := "Produto E", productPrice := 100 },
   { id := 2, saleId := 1, productId := 3, quantity := 2, unitPrice := 100, total := 200,
     productName := "Produto C", productPrice := 100 }]

/-- Counterexample to C7 as stated: with equal quantities the report lists
product 3 before product 5 even though product 5 was discovered first, so
ties follow ascending product id, not discovery order. -/
theorem topProducts_tie_not_discovery_order :
    (calculateTopProductsFromSaleItems tieItems tieProducts).map TopProduct.id = [3, 5] ∧
    (calculateTopProductsFromSaleItems tieItems tieProducts).map TopProduct.id ≠ [5, 3] := by
  decide

/-- A store where sale 1 has one item for the existing product 1 and one
item for product 2, which has no `products` row. -/
def orphanStore : Store :=
  { clients := [],
    products :=
      [{ id := 1, name := "Cafe", description := "Pacote de cafe", category := "Bebidas",
         price := 500, stock := 10, minStock := some 5, sku := none, updatedAt := some 0 }],
    sales := [{ id := 1, date := 5, clientId := none, total := 3500, notes := none }],
    saleItems :=
      [{ id := 1, saleId := 1, productId := 1, quantity := 4, unitPrice := 500, total := 2000 },
       { id := 2, saleId := 1, productId := 2, quantity := 3, unitPrice := 500, total := 1500 }],
    nextSaleId := 2, nextSaleItemId := 3 }

/-- Claim C6: the specification requires a `productId` whose product record
was deleted to still appear in the report with a sentinel name.  The
`GET /api/sale-items` feed inner-joins `products`, so the item for the
missing product 2 is dropped before the report logic (whose sentinel
labeling never sees it), and product 2 is absent from the result. -/
theorem saleItemsFeed_drops_deleted_product :
    orphanStore.saleItems.map SaleItem.productId = [1, 2] ∧
    (getSaleItemsFeed orphanStore 0 100).map FeedRow.productId = [1] ∧
    (calculateTopProductsFromSaleItems (getSaleItemsFeed orphanStore 0 100)
        orphanStore.products).map TopProduct.id = [1] := by
  decide

end CrudeLoja
